import Mathlib

/-!
Shallow embedding of the core of the `linkedin-automation-poc` repository
(rate limiter, timing controller, checkpoint detector, search-result
post-processing, pointer-path generator, typing simulator), together with
theorems settling the specification claims about those components.

Conventions used throughout:
* Go `time.Duration` (an `int64` count of nanoseconds) and Go `time.Time`
  instants are modelled as `Int` nanosecond values; `time.Since(t)` at call
  instant `now` is `now - t`.  The zero `time.Time` is modelled as `none` of
  an `Option Int`.
* Go `int` counters are modelled as `Int`.
* Randomness is modelled by passing the drawn values explicitly: a theorem
  quantifying over the draw arguments covers every outcome of the random
  draws in the source.
-/

set_option maxRecDepth 4000

namespace LinkedInPoc

/-- Nanoseconds per millisecond (`time.Millisecond`). -/
def nsPerMillisecond : Int := 1000000

/-- Nanoseconds per second (`time.Second`). -/
def nsPerSecond : Int := 1000000000

/-- Nanoseconds per minute (`time.Minute`). -/
def nsPerMinute : Int := 60 * nsPerSecond

/-- Nanoseconds per day (24 hours). -/
def nsPerDay : Int := 86400 * nsPerSecond

/-- Models Go stdlib `lessThanHalf(x, y)` from `time`: reports whether
`x + x < y`. -/
def lessThanHalf (x y : Int) : Bool := x + x < y

/-- Models Go stdlib `Duration.Round(m)`: rounds `d` to the nearest multiple
of `m`, rounding half away from zero.  The `int64` overflow guards of the
original are dropped: on the unbounded `Int` model the guarded additions
never overflow. -/
def durationRound (d m : Int) : Int :=
  if m ≤ 0 then d
  else
    let r := Int.tmod d m
    if d < 0 then
      let r := -r
      if lessThanHalf r m then d + r else d - m + r
    else
      if lessThanHalf r m then d - r else d + m - r

/-- Models Go stdlib `fmtFrac(buf, v, prec)`: formats the `prec` lowest
decimal digits of `v` as a fraction `.ddd`, omitting trailing zeros (and the
whole fraction when it is zero), and returns `v` with those digits divided
out.  Digits are produced least-significant first and prepended, exactly as
the original writes into its buffer right to left. -/
def fmtFracGo : Nat → Nat → String → Bool → Nat × String
  | v, 0, acc, printed => (v, if printed then "." ++ acc else "")
  | v, p + 1, acc, printed =>
    let digit := v % 10
    let printed := printed || decide (digit ≠ 0)
    fmtFracGo (v / 10) p (if printed then toString digit ++ acc else acc) printed

/-- Models Go stdlib `Duration.String()`: renders a nanosecond count such as
`300000000000` as `"5m0s"`.  Sub-second values use `ns`/`µs`/`ms` units with
a trimmed fraction; values of a second and more print seconds, then minutes
and hours as needed, building the string right to left. -/
def durationString (d : Int) : String :=
  let u := d.natAbs
  let sign := if d < 0 then "-" else ""
  if u < 1000000000 then
    if u = 0 then "0s"
    else if u < 1000 then sign ++ toString u ++ "ns"
    else if u < 1000000 then
      let (v, fr) := fmtFracGo u 3 "" false
      sign ++ toString v ++ fr ++ "µs"
    else
      let (v, fr) := fmtFracGo u 6 "" false
      sign ++ toString v ++ fr ++ "ms"
  else
    let (sec, fr) := fmtFracGo u 9 "" false
    let base := toString (sec % 60) ++ fr ++ "s"
    let mins := sec / 60
    let withMin :=
      if 0 < mins then
        let m1 := toString (mins % 60) ++ "m" ++ base
        let hrs := mins / 60
        if 0 < hrs then toString hrs ++ "h" ++ m1 else m1
      else base
    sign ++ withMin

/-- Models Go stdlib civil-calendar conversion as used by `time.Time.Day()`
(at a fixed UTC offset): days since the Unix epoch to `(year, month, day)`
in the proleptic Gregorian calendar. -/
def civilFromDays (z0 : Int) : Int × Int × Int :=
  let z := z0 + 719468
  let era := Int.fdiv z 146097
  let doe := z - era * 146097
  let yoe := (doe - doe / 1460 + doe / 36524 - doe / 146096) / 365
  let y := yoe + era * 400
  let doy := doe - (365 * yoe + yoe / 4 - yoe / 100)
  let mp := (5 * doy + 2) / 153
  let d := doy - (153 * mp + 2) / 5 + 1
  let m := mp + (if mp < 10 then 3 else -9)
  (y + (if m ≤ 2 then 1 else 0), m, d)

/-- Models Go `t.Day()` for an instant `t` in nanoseconds since the Unix
epoch, at UTC: the day-of-month component of the civil date. -/
def dayOfMonth (t : Int) : Int := (civilFromDays (Int.fdiv t nsPerDay)).2.2

/-! ## Rate limiter (`internal/interaction`, `Limits`) -/

/-- Go `config.LimitsConfig`: daily caps are `int`; cooldowns are
`time.Duration` nanosecond counts. -/
structure LimitsConfig where
  DailyConnections : Int
  DailyMessages : Int
  DailySearches : Int
  ConnectionCooldown : Int
  MessageCooldown : Int
  MaxConsecutiveActions : Int
deriving DecidableEq

/-- Mutable state of Go `interaction.Limits` (the `config`, `mu` and
`logger` fields carry no limit state).  `lastConnection`/`lastMessage` are
`none` exactly when the Go `time.Time` field holds its zero value
(`IsZero()`). -/
structure LimitState where
  connectionCount : Int
  messageCount : Int
  searchCount : Int
  lastConnection : Option Int
  lastMessage : Option Int
  consecutiveCount : Int
  lastReset : Int
deriving DecidableEq

/-- Go `NewLimits(cfg)` called at instant `now`: zero counters, zero
timestamps, `lastReset = time.Now()`. -/
def NewLimits (now : Int) : LimitState :=
  { connectionCount := 0, messageCount := 0, searchCount := 0,
    lastConnection := none, lastMessage := none,
    consecutiveCount := 0, lastReset := now }

/-- Reason string of the daily-connection gate:
`fmt.Sprintf("daily connection limit reached (%d/%d)", count, cap)`. -/
def dailyConnectionMsg (count cap : Int) : String :=
  "daily connection limit reached (" ++ toString count ++ "/" ++ toString cap ++ ")"

/-- Reason string of the connection-cooldown gate:
`fmt.Sprintf("connection cooldown active (wait %s)", remaining.Round(time.Second))`. -/
def connectionCooldownMsg (remaining : Int) : String :=
  "connection cooldown active (wait " ++ durationString (durationRound remaining nsPerSecond) ++ ")"

/-- Reason string of the consecutive-actions gate:
`fmt.Sprintf("max consecutive actions reached (%d), take a break", max)`. -/
def consecutiveMsg (maxActions : Int) : String :=
  "max consecutive actions reached (" ++ toString maxActions ++ "), take a break"

/-- Reason string of the daily-message gate. -/
def dailyMessageMsg (count cap : Int) : String :=
  "daily message limit reached (" ++ toString count ++ "/" ++ toString cap ++ ")"

/-- Reason string of the message-cooldown gate. -/
def messageCooldownMsg (remaining : Int) : String :=
  "message cooldown active (wait " ++ durationString (durationRound remaining nsPerSecond) ++ ")"

/-- Reason string of the daily-search gate. -/
def dailySearchMsg (count cap : Int) : String :=
  "daily search limit reached (" ++ toString count ++ "/" ++ toString cap ++ ")"

/-- Final gate of `CanSendConnection`: the consecutive-actions check,
then the `(true, "ok")` fall-through. -/
def consecutiveGate (cfg : LimitsConfig) (s : LimitState) : Bool × String :=
  if cfg.MaxConsecutiveActions ≤ s.consecutiveCount then
    (false, consecutiveMsg cfg.MaxConsecutiveActions)
  else (true, "ok")

/-- Go `Limits.CanSendConnection()` evaluated at instant `now`: daily
limit, then cooldown (skipped when `lastConnection.IsZero()`), then
consecutive actions. -/
def CanSendConnection (cfg : LimitsConfig) (s : LimitState) (now : Int) : Bool × String :=
  if cfg.DailyConnections ≤ s.connectionCount then
    (false, dailyConnectionMsg s.connectionCount cfg.DailyConnections)
  else
    match s.lastConnection with
    | some t =>
      if now - t < cfg.ConnectionCooldown then
        (false, connectionCooldownMsg (cfg.ConnectionCooldown - (now - t)))
      else consecutiveGate cfg s
    | none => consecutiveGate cfg s

/-- Go `Limits.CanSendMessage()` evaluated at instant `now`: daily limit,
then cooldown; no consecutive-actions gate. -/
def CanSendMessage (cfg : LimitsConfig) (s : LimitState) (now : Int) : Bool × String :=
  if cfg.DailyMessages ≤ s.messageCount then
    (false, dailyMessageMsg s.messageCount cfg.DailyMessages)
  else
    match s.lastMessage with
    | some t =>
      if now - t < cfg.MessageCooldown then
        (false, messageCooldownMsg (cfg.MessageCooldown - (now - t)))
      else (true, "ok")
    | none => (true, "ok")

/-- Go `Limits.CanSearch()`: daily limit only. -/
def CanSearch (cfg : LimitsConfig) (s : LimitState) : Bool × String :=
  if cfg.DailySearches ≤ s.searchCount then
    (false, dailySearchMsg s.searchCount cfg.DailySearches)
  else (true, "ok")

/-- Go `Limits.RecordConnection()` at instant `now`. -/
def RecordConnection (s : LimitState) (now : Int) : LimitState :=
  { s with connectionCount := s.connectionCount + 1,
           lastConnection := some now,
           consecutiveCount := s.consecutiveCount + 1 }

/-- Go `Limits.RecordMessage()` at instant `now`. -/
def RecordMessage (s : LimitState) (now : Int) : LimitState :=
  { s with messageCount := s.messageCount + 1, lastMessage := some now }

/-- Go `Limits.RecordSearch()`. -/
def RecordSearch (s : LimitState) : LimitState :=
  { s with searchCount := s.searchCount + 1 }

/-- Go `Limits.ResetConsecutiveCount()`. -/
def ResetConsecutiveCount (s : LimitState) : LimitState :=
  { s with consecutiveCount := 0 }

/-- Go `Limits.ResetDaily()` at instant `now`: zeroes the three daily
counters and the consecutive counter and stamps `lastReset`; it does not
touch `lastConnection`/`lastMessage`. -/
def ResetDaily (s : LimitState) (now : Int) : LimitState :=
  { s with connectionCount := 0, messageCount := 0, searchCount := 0,
           consecutiveCount := 0, lastReset := now }

/-- Go `Limits.ShouldResetDaily()` at instant `now`: compares only the
day-of-month of `lastReset` with the day-of-month of `now`. -/
def ShouldResetDaily (s : LimitState) (now : Int) : Bool :=
  dayOfMonth s.lastReset != dayOfMonth now

/-- Go `Limits.GetRemainingConnections()`. -/
def GetRemainingConnections (cfg : LimitsConfig) (s : LimitState) : Int :=
  let remaining := cfg.DailyConnections - s.connectionCount
  if remaining < 0 then 0 else remaining

/-- Go `Limits.GetRemainingMessages()`. -/
def GetRemainingMessages (cfg : LimitsConfig) (s : LimitState) : Int :=
  let remaining := cfg.DailyMessages - s.messageCount
  if remaining < 0 then 0 else remaining

/-- Boolean form of "the connection cooldown gate passes" for a state at
instant `now`: either no connection was ever recorded, or the configured
cooldown has elapsed. -/
def connCooldownPassed (cfg : LimitsConfig) (s : LimitState) (now : Int) : Bool :=
  match s.lastConnection with
  | none => true
  | some t => decide (cfg.ConnectionCooldown ≤ now - t)

/-- Boolean form of "the message cooldown gate passes". -/
def msgCooldownPassed (cfg : LimitsConfig) (s : LimitState) (now : Int) : Bool :=
  match s.lastMessage with
  | none => true
  | some t => decide (cfg.MessageCooldown ≤ now - t)

/-- The methods of Go `interaction.Limits`, as one operation type; used to
state frame properties over every operation at once. -/
inductive LimitsOp where
  | canSendConnectionOp
  | canSendMessageOp
  | canSearchOp
  | recordConnectionOp
  | recordMessageOp
  | recordSearchOp
  | resetConsecutiveOp
  | resetDailyOp
  | shouldResetDailyOp
  | getConnectionCountOp
  | getMessageCountOp
  | getSearchCountOp
  | getRemainingConnectionsOp
  | getRemainingMessagesOp
  | getStatsOp
  | waitForConnectionCooldownOp
  | waitForMessageCooldownOp
deriving DecidableEq

open LimitsOp in
/-- State transition of each `Limits` method: the `Record*`/`Reset*`
methods write the fields their Go bodies write; every other method only
reads fields under the mutex and leaves the state as it was. -/
def LimitsOp.step : LimitsOp → Int → LimitState → LimitState
  | recordConnectionOp, now, s => RecordConnection s now
  | recordMessageOp, now, s => RecordMessage s now
  | recordSearchOp, _, s => RecordSearch s
  | resetConsecutiveOp, _, s => ResetConsecutiveCount s
  | resetDailyOp, now, s => ResetDaily s now
  | canSendConnectionOp, _, s => s
  | canSendMessageOp, _, s => s
  | canSearchOp, _, s => s
  | shouldResetDailyOp, _, s => s
  | getConnectionCountOp, _, s => s
  | getMessageCountOp, _, s => s
  | getSearchCountOp, _, s => s
  | getRemainingConnectionsOp, _, s => s
  | getRemainingMessagesOp, _, s => s
  | getStatsOp, _, s => s
  | waitForConnectionCooldownOp, _, s => s
  | waitForMessageCooldownOp, _, s => s

/-- Folding `RecordConnection` over a list of call instants. -/
def recordConnectionSeq (s : LimitState) (ts : List Int) : LimitState :=
  ts.foldl RecordConnection s

/-- The default `limits` configuration installed by `setDefaults`:
50 daily connections, 20 daily messages, 100 daily searches, 5-minute
connection cooldown, 10-minute message cooldown, 5 consecutive actions. -/
def cfgDefault : LimitsConfig :=
  { DailyConnections := 50, DailyMessages := 20, DailySearches := 100,
    ConnectionCooldown := 5 * nsPerMinute, MessageCooldown := 10 * nsPerMinute,
    MaxConsecutiveActions := 5 }

/-- A fresh limiter after 50 `RecordConnection` calls, all at instant 0. -/
def limits50 : LimitState := recordConnectionSeq (NewLimits 0) (List.replicate 50 0)

/-! ## Timing controller (`internal/stealth`, `Timing`) -/

/-- Go `config.TimingConfig`: durations in nanoseconds; the `float64`
fatigue multiplier is modelled as a rational. -/
structure TimingConfig where
  MinActionDelay : Int
  MaxActionDelay : Int
  PageLoadTimeout : Int
  FatigueMultiplier : ℚ
  FatigueAfter : Int
deriving DecidableEq

/-- Go `stealth.Timing`: configuration plus the mutable fatigue state. -/
structure Timing where
  config : TimingConfig
  actionCount : Int
  fatigueActive : Bool
deriving DecidableEq

/-- Go `NewTiming(cfg)`. -/
def NewTiming (cfg : TimingConfig) : Timing :=
  { config := cfg, actionCount := 0, fatigueActive := false }

/-- Go conversion of a `float64` to an integer type (`time.Duration(v)`,
`int64(v)`): truncation toward zero, computed on the reduced fraction. -/
def truncQ (q : ℚ) : Int := Int.tdiv q.num q.den

/-- Models `Timing.logNormalDelay(min, max)`.  The transcendental
Box–Muller draw `exp(mu + sigma*z)` of the source is abstracted as the
oracle argument `draw` (a value in milliseconds); the surrounding structure
is retained from the source: the bounds are converted to milliseconds with
`Duration.Milliseconds()` (a truncating integer division), the drawn value
is clamped first below by `minMs` and then above by `maxMs`, and the result
is converted back to a whole-millisecond duration. -/
def logNormalDelay (minD maxD : Int) (draw : ℚ) : Int :=
  let minMs : ℚ := (Int.tdiv minD nsPerMillisecond : Int)
  let maxMs : ℚ := (Int.tdiv maxD nsPerMillisecond : Int)
  let v1 := if draw < minMs then minMs else draw
  let v2 := if maxMs < v1 then maxMs else v1
  truncQ v2 * nsPerMillisecond

/-- Go `Timing.ActionDelay()`: draws a log-normal delay from the configured
action-delay bounds, multiplies it by the fatigue multiplier once the
action counter has reached the fatigue threshold (setting the fatigue
flag), increments the counter, and returns the delay with the updated
state. -/
def Timing.ActionDelay (t : Timing) (draw : ℚ) : Int × Timing :=
  let delay := logNormalDelay t.config.MinActionDelay t.config.MaxActionDelay draw
  let (delay, t1) :=
    if t.config.FatigueAfter ≤ t.actionCount then
      (truncQ ((delay : ℚ) * t.config.FatigueMultiplier), { t with fatigueActive := true })
    else (delay, t)
  (delay, { t1 with actionCount := t1.actionCount + 1 })

/-- Go `Timing.PageLoadDelay()`: log-normal in `[1s, 3s]`, no fatigue
logic, no state change. -/
def Timing.PageLoadDelay (_t : Timing) (draw : ℚ) : Int :=
  logNormalDelay nsPerSecond (3 * nsPerSecond) draw

/-- Go `Timing.ShortPause()`: log-normal in `[200ms, 800ms]`, no fatigue
logic, no state change. -/
def Timing.ShortPause (_t : Timing) (draw : ℚ) : Int :=
  logNormalDelay (200 * nsPerMillisecond) (800 * nsPerMillisecond) draw

/-- Go `Timing.MediumPause()`: log-normal in `[1s, 3s]`. -/
def Timing.MediumPause (_t : Timing) (draw : ℚ) : Int :=
  logNormalDelay nsPerSecond (3 * nsPerSecond) draw

/-- Go `Timing.LongPause()`: log-normal in `[3s, 8s]`. -/
def Timing.LongPause (_t : Timing) (draw : ℚ) : Int :=
  logNormalDelay (3 * nsPerSecond) (8 * nsPerSecond) draw

/-- Go `Timing.ThinkingDelay()`: log-normal in `[1s, 5s]`. -/
def Timing.ThinkingDelay (_t : Timing) (draw : ℚ) : Int :=
  logNormalDelay nsPerSecond (5 * nsPerSecond) draw

/-- Go `Timing.ReadingTime(wordCount)`: word count over 3.5 words/sec,
scaled by the `randomFloat(0.8, 1.2)` draw `variance`, clamped to
`[2s, 30s]`; no fatigue logic, no state change. -/
def Timing.ReadingTime (_t : Timing) (wordCount : Int) (variance : ℚ) : Int :=
  let wordsPerSecond : ℚ := 35 / 10
  let baseTime : ℚ := (wordCount : ℚ) / wordsPerSecond
  let seconds := baseTime * variance
  let seconds := if seconds < 2 then 2 else seconds
  let seconds := if 30 < seconds then 30 else seconds
  truncQ (seconds * ((nsPerSecond : Int) : ℚ))

/-- Go `Timing.ResetFatigue()`: zeroes the action counter and clears the
fatigue flag. -/
def Timing.ResetFatigue (t : Timing) : Timing :=
  { t with actionCount := 0, fatigueActive := false }

/-- Go `Timing.IncrementAction()`. -/
def Timing.IncrementAction (t : Timing) : Timing :=
  { t with actionCount := t.actionCount + 1 }

/-! ## Checkpoint detector (`internal/auth`, `Checkpoint`) -/

/-- Result of a DOM element lookup: visibility as reported by
`Element.Visible()` and text as reported by `Element.Text()`. -/
structure DomElement where
  visible : Bool
  text : String
deriving DecidableEq

/-- A page as observed by the checkpoint detector: `query sel` is the
element found for CSS selector `sel` (`none` when the timed
`page.Element(sel)` lookup errors out), `url` is `page.MustInfo().URL`. -/
structure Page where
  query : String → Option DomElement
  url : String

/-- Models Go `findSubstring(s, substr)` from `internal/auth`: scans every
offset `i` in `0 .. len(s)-len(substr)` for `s[i:i+len(substr)] == substr`. -/
def findSubstring (s substr : List Char) : Bool :=
  (List.range (s.length - substr.length + 1)).any
    fun i => decide ((s.drop i).take substr.length = substr)

/-- Models Go `contains(s, substr)` from `internal/auth`:
`len(s) >= len(substr) && findSubstring(s, substr)`. -/
def contains (s substr : String) : Bool :=
  decide (substr.length ≤ s.length) && findSubstring s.toList substr.toList

/-- Go `auth.CheckpointType` constants. -/
inductive CheckpointType where
  | none
  | captcha
  | twofa
  | verification
  | restricted
  | unknown
deriving DecidableEq

/-- Selector list of `Checkpoint.hasCAPTCHA`. -/
def captchaSelectors : List String :=
  ["#captcha-internal", ".g-recaptcha", "[data-test-id=\x27captcha\x27]",
   "iframe[src*=\x27recaptcha\x27]", "iframe[src*=\x27captcha\x27]"]

/-- Selector list of `Checkpoint.has2FA`. -/
def twoFASelectors : List String :=
  ["input[name=\x27pin\x27]", "input[id=\x27pin\x27]",
   "[data-test-id=\x272fa-input\x27]", ".two-step-verification"]

/-- Selector list of `Checkpoint.hasVerificationChallenge`. -/
def verificationSelectors : List String :=
  [".challenge-dialog", "[data-test-id=\x27verification-challenge\x27]",
   ".security-challenge", "#email-pin-challenge"]

/-- URL path list of `Checkpoint.hasVerificationChallenge`. -/
def verificationPaths : List String :=
  ["/checkpoint/challenge", "/checkpoint/lg/", "/challenge/"]

/-- Selector list of `Checkpoint.hasAccountRestriction`. -/
def restrictionSelectors : List String :=
  [".account-restricted", "[data-test-id=\x27account-restricted\x27]",
   ".restricted-account-notice"]

/-- Keyword list of `Checkpoint.hasAccountRestriction`. -/
def restrictionKeywords : List String :=
  ["account has been restricted", "temporarily restricted",
   "violated our terms", "suspended"]

/-- Selector list of `Checkpoint.hasUnusualActivity`. -/
def unusualSelectors : List String :=
  [".unusual-activity", "[data-test-id=\x27unusual-activity\x27]"]

/-- Loop body of `hasCAPTCHA`/`has2FA`/`hasVerificationChallenge`: the
element is found and `Visible()` reports true. -/
def queryVisible (p : Page) (sel : String) : Bool :=
  match p.query sel with
  | some e => e.visible
  | Option.none => false

/-- Loop body of `hasAccountRestriction`/`hasUnusualActivity`: the element
is found; its visibility is never consulted. -/
def queryFound (p : Page) (sel : String) : Bool :=
  (p.query sel).isSome

/-- Go `Checkpoint.hasCAPTCHA()`: some CAPTCHA selector matches a visible
element. -/
def hasCAPTCHA (p : Page) : Bool :=
  captchaSelectors.any (queryVisible p)

/-- Go `Checkpoint.has2FA()`: some 2FA selector matches a visible element. -/
def has2FA (p : Page) : Bool :=
  twoFASelectors.any (queryVisible p)

/-- Go `Checkpoint.hasVerificationChallenge()`: some verification selector
matches a visible element, or the URL contains a challenge path. -/
def hasVerificationChallenge (p : Page) : Bool :=
  verificationSelectors.any (queryVisible p) ||
    verificationPaths.any fun path => contains p.url path

/-- Go `Checkpoint.hasAccountRestriction()`: some restriction selector
matches an element (present or not visible — visibility is not checked),
or the body text contains a restriction keyword. -/
def hasAccountRestriction (p : Page) : Bool :=
  restrictionSelectors.any (queryFound p) ||
    match p.query "body" with
    | some body => restrictionKeywords.any fun keyword => contains body.text keyword
    | Option.none => false

/-- Go `Checkpoint.hasUnusualActivity()`: some unusual-activity selector
matches an element (visibility not checked), or the body text contains an
unusual-activity phrase. -/
def hasUnusualActivity (p : Page) : Bool :=
  unusualSelectors.any (queryFound p) ||
    match p.query "body" with
    | some body => contains body.text "unusual activity" || contains body.text "verify your identity"
    | Option.none => false

/-- Go `Checkpoint.Detect()`: the five predicates in priority order; the
first that fires decides the classification. -/
def Detect (p : Page) : CheckpointType × String :=
  if hasCAPTCHA p then
    (CheckpointType.captcha, "CAPTCHA challenge detected - manual intervention required")
  else if has2FA p then
    (CheckpointType.twofa, "Two-factor authentication required")
  else if hasVerificationChallenge p then
    (CheckpointType.verification, "Account verification required")
  else if hasAccountRestriction p then
    (CheckpointType.restricted, "Account has been restricted")
  else if hasUnusualActivity p then
    (CheckpointType.verification, "Unusual activity detected by LinkedIn")
  else (CheckpointType.none, "")

/-- Every marker selector probed by the five predicates. -/
def allMarkerSelectors : List String :=
  captchaSelectors ++ twoFASelectors ++ verificationSelectors ++
    restrictionSelectors ++ unusualSelectors

/-- A fixture page on which every checkpoint marker element is present in
the DOM but not visible, the body lookup fails, and the URL is a plain
feed URL. -/
def invisibleMarkersPage : Page :=
  { query := fun sel =>
      if sel ∈ allMarkerSelectors then some { visible := false, text := "" } else Option.none,
    url := "https://www.linkedin.com/feed/" }

/-- A fixture page whose CAPTCHA, 2FA and verification markers are present
but invisible, with no restriction or unusual-activity markers at all. -/
def cleanInvisiblePage : Page :=
  { query := fun sel =>
      if sel ∈ captchaSelectors ++ twoFASelectors ++ verificationSelectors then
        some { visible := false, text := "" }
      else Option.none,
    url := "https://www.linkedin.com/feed/" }

/-- The default `stealth.timing` configuration installed by `setDefaults`:
action delay 500ms–2s, fatigue multiplier 1.5 after 20 actions. -/
def timingCfgDefault : TimingConfig :=
  { MinActionDelay := 500 * nsPerMillisecond, MaxActionDelay := 2 * nsPerSecond,
    PageLoadTimeout := 30 * nsPerSecond, FatigueMultiplier := 3 / 2, FatigueAfter := 20 }

/-- A timing controller that has reached its fatigue threshold (20 actions
under the default configuration). -/
def timingFatigued : Timing :=
  { config := timingCfgDefault, actionCount := 20, fatigueActive := true }

/-! ## Search-result post-processing (`internal/search`, `Parser`) -/

/-- Go `search.ProfileResult`. -/
structure ProfileResult where
  ProfileURL : String
  Name : String
  Headline : String
  Location : String
  ImageURL : String
  IsConnected : Bool
  ConnectionDegree : String
deriving DecidableEq

/-- Go `Parser.FilterConnectable(profiles)`: the loop appends, in order,
exactly the profiles whose `IsConnected` is false. -/
def FilterConnectable : List ProfileResult → List ProfileResult
  | [] => []
  | p :: ps => if p.IsConnected then FilterConnectable ps else p :: FilterConnectable ps

/-- Loop of Go `Parser.DeduplicateProfiles`: `seen` is the URL set already
kept (the Go `map[string]bool`). -/
def dedupGo (seen : List String) : List ProfileResult → List ProfileResult
  | [] => []
  | p :: ps =>
    if p.ProfileURL ∈ seen then dedupGo seen ps
    else p :: dedupGo (p.ProfileURL :: seen) ps

/-- Go `Parser.DeduplicateProfiles(profiles)`: starts with an empty `seen`
set. -/
def DeduplicateProfiles (profiles : List ProfileResult) : List ProfileResult :=
  dedupGo [] profiles

/-! ## Pointer-path generator (`internal/stealth`, `Mouse`) -/

/-- Go `stealth.Point`; the `float64` coordinates are modelled as
rationals. -/
structure Point where
  X : ℚ
  Y : ℚ
deriving DecidableEq

/-- Go `cubicBezier(t, p0, p1, p2, p3)`, verbatim. -/
def cubicBezier (t : ℚ) (p0 p1 p2 p3 : Point) : Point :=
  let u := 1 - t
  let tt := t * t
  let uu := u * u
  let uuu := uu * u
  let ttt := tt * t
  { X := uuu * p0.X + 3 * uu * t * p1.X + 3 * u * tt * p2.X + ttt * p3.X,
    Y := uuu * p0.Y + 3 * uu * t * p1.Y + 3 * u * tt * p2.Y + ttt * p3.Y }

/-- Models `Mouse.generateBezierPath(start, end)` with the random draws
made explicit: `steps` is the `randomInt(MinSteps, MaxSteps)` draw, and
`off1`/`off2` are the drawn `randomFloat(-distance*0.2, distance*0.2)`
control-point offsets (the `math.Sqrt` distance only bounds the range the
offsets are drawn from; it does not otherwise enter the path).  The float
literals `0.33`/`0.66` are taken at face value as rationals.  `end` is a
Lean keyword, so the parameter is named `finish`. -/
def generateBezierPath (start finish : Point) (steps : Nat) (off1 off2 : Point) : List Point :=
  let controlPoint1 : Point :=
    { X := start.X + (finish.X - start.X) * (33 / 100) + off1.X,
      Y := start.Y + (finish.Y - start.Y) * (33 / 100) + off1.Y }
  let controlPoint2 : Point :=
    { X := start.X + (finish.X - start.X) * (66 / 100) + off2.X,
      Y := start.Y + (finish.Y - start.Y) * (66 / 100) + off2.Y }
  (List.range steps).map fun (i : Nat) =>
    cubicBezier ((i : ℚ) / ((steps - 1 : Nat) : ℚ)) start controlPoint1 controlPoint2 finish

/-! ## Typing simulator (`internal/stealth`, `Typing`) -/

/-- A keyboard event emitted by the typing simulator: a printable key
(`page.Keyboard.Type`) or a Backspace press. -/
inductive KeyStroke where
  | key (c : Char)
  | backspace
deriving DecidableEq

/-- The character pool of Go `getRandomChar()`. -/
def typoChars : List Char := "abcdefghijklmnopqrstuvwxyz".toList

/-- Go `getRandomChar()`: `chars[idx]` for the `randomInt(0, len(chars)-1)`
draw `idx`.  The draw is always in range in the source; out-of-range
indices fall back to the pool's first character, which keeps the model
total without changing any reachable behaviour. -/
def getRandomChar (idx : Nat) : Char := typoChars.getD idx 'a'

/-- Go `shouldMakeError(errorRate)`: false for a non-positive rate,
otherwise compares the uniform `randomFloat(0, 1)` draw with the rate. -/
def shouldMakeError (errorRate draw : ℚ) : Bool :=
  if errorRate ≤ 0 then false else decide (draw < errorRate)

/-- The separator test of Go `splitIntoWords`: space, newline or tab. -/
def isSeparator (c : Char) : Bool := c = ' ' || c = '\n' || c = '\t'

/-- Loop of Go `splitIntoWords`: `currentWord` is the accumulator; a
separator flushes a non-empty accumulator, any other character is
appended. -/
def splitGo : List Char → List Char → List (List Char)
  | [], currentWord => if currentWord.isEmpty then [] else [currentWord]
  | c :: cs, currentWord =>
    if isSeparator c then
      if currentWord.isEmpty then splitGo cs [] else currentWord :: splitGo cs []
    else splitGo cs (currentWord ++ [c])

/-- Go `splitIntoWords(text)` over the text's characters (Go iterates the
string's runes). -/
def splitIntoWords (text : List Char) : List (List Char) := splitGo text []

/-- Spec-side definition, following the spec's words: the words of a text
are its maximal runs of non-whitespace characters, whitespace being space,
newline and tab. -/
def specWords : List Char → List (List Char)
  | [] => []
  | c :: cs =>
    if isSeparator c then specWords cs
    else (c :: cs.takeWhile fun d => !isSeparator d) ::
      specWords (cs.dropWhile fun d => !isSeparator d)
termination_by l => l.length
decreasing_by
  · simp only [List.length_cons]
    omega
  · simp only [List.length_cons]
    have h : ∀ l : List Char, (List.dropWhile (fun d => !isSeparator d) l).length ≤ l.length := by
      intro l
      induction l with
      | nil => simp [List.dropWhile]
      | cons a l ih =>
        rw [List.dropWhile_cons]
        split
        · exact Nat.le_succ_of_le ih
        · simp
    have := h cs
    omega

/-- Spec-side definition, following the spec's words: words joined by
single spaces. -/
def joinWords : List (List Char) → List Char
  | [] => []
  | [w] => w
  | w :: ws => w ++ ' ' :: joinWords ws

/-- Loop of Go `Typing.typeWord`: the keystrokes emitted for one word.
`i` is the character index within the word; `errDraws` and `wrongDraws`
are the per-index outcomes of the `randomFloat(0,1)` and `randomInt(0,25)`
draws.  With a typo drawn at a non-first character the simulator emits the
random wrong letter, a Backspace, then the correct character. -/
def typeWordGo (errorRate : ℚ) (errDraws : Nat → ℚ) (wrongDraws : Nat → Nat) :
    Nat → List Char → List KeyStroke
  | _, [] => []
  | i, c :: cs =>
    (if shouldMakeError errorRate (errDraws i) && decide (0 < i) then
      [KeyStroke.key (getRandomChar (wrongDraws i)), KeyStroke.backspace, KeyStroke.key c]
    else [KeyStroke.key c]) ++ typeWordGo errorRate errDraws wrongDraws (i + 1) cs

/-- Go `Typing.typeWord(word)`. -/
def typeWord (errorRate : ℚ) (errDraws : Nat → ℚ) (wrongDraws : Nat → Nat)
    (word : List Char) : List KeyStroke :=
  typeWordGo errorRate errDraws wrongDraws 0 word

/-- Loop of Go `Typing.Type`: types each word, with a single space typed
after every word but the last; the draw oracles are indexed by word, then
by character. -/
def typeGo (errorRate : ℚ) (errDraws : Nat → Nat → ℚ) (wrongDraws : Nat → Nat → Nat) :
    List (List Char) → List KeyStroke
  | [] => []
  | [w] => typeWord errorRate (errDraws 0) (wrongDraws 0) w
  | w :: w2 :: ws =>
    typeWord errorRate (errDraws 0) (wrongDraws 0) w ++
      KeyStroke.key ' ' :: typeGo errorRate (fun k => errDraws (k + 1))
        (fun k => wrongDraws (k + 1)) (w2 :: ws)

/-- Go `Typing.Type(text)`: split into words, then type them with
inter-word spaces. -/
def TypeText (errorRate : ℚ) (errDraws : Nat → Nat → ℚ) (wrongDraws : Nat → Nat → Nat)
    (text : List Char) : List KeyStroke :=
  typeGo errorRate errDraws wrongDraws (splitIntoWords text)

/-- Net effect of a keystroke sequence on a focused text field: a key
appends its character, Backspace deletes the last character. -/
def applyKeys (field : List Char) : List KeyStroke → List Char
  | [] => field
  | KeyStroke.key c :: ks => applyKeys (field ++ [c]) ks
  | KeyStroke.backspace :: ks => applyKeys field.dropLast ks

/-! ## Theorems -/

/-- Helper: Go truncation of an integer-valued float is the integer. -/
theorem truncQ_intCast (n : Int) : truncQ ((n : ℚ)) = n := by
  simp [truncQ]

/-- Claim C4: `CanSendConnection` evaluates daily quota, then cooldown,
then consecutive ceiling, returning the first failing gate's reason or
`(true, "ok")`; `CanSendMessage` checks only daily quota then cooldown and
is independent of the consecutive counter; `CanSearch` checks only the
daily search quota and is independent of every other field. -/
theorem canSend_gate_order (cfg : LimitsConfig) (s : LimitState) (now : Int) :
    (cfg.DailyConnections ≤ s.connectionCount →
      CanSendConnection cfg s now = (false, dailyConnectionMsg s.connectionCount cfg.DailyConnections)) ∧
    (∀ t, s.connectionCount < cfg.DailyConnections → s.lastConnection = some t →
      now - t < cfg.ConnectionCooldown →
      CanSendConnection cfg s now = (false, connectionCooldownMsg (cfg.ConnectionCooldown - (now - t)))) ∧
    (s.connectionCount < cfg.DailyConnections → connCooldownPassed cfg s now = true →
      cfg.MaxConsecutiveActions ≤ s.consecutiveCount →
      CanSendConnection cfg s now = (false, consecutiveMsg cfg.MaxConsecutiveActions)) ∧
    (s.connectionCount < cfg.DailyConnections → connCooldownPassed cfg s now = true →
      s.consecutiveCount < cfg.MaxConsecutiveActions →
      CanSendConnection cfg s now = (true, "ok")) ∧
    (cfg.DailyMessages ≤ s.messageCount →
      CanSendMessage cfg s now = (false, dailyMessageMsg s.messageCount cfg.DailyMessages)) ∧
    (∀ t, s.messageCount < cfg.DailyMessages → s.lastMessage = some t →
      now - t < cfg.MessageCooldown →
      CanSendMessage cfg s now = (false, messageCooldownMsg (cfg.MessageCooldown - (now - t)))) ∧
    (s.messageCount < cfg.DailyMessages → msgCooldownPassed cfg s now = true →
      CanSendMessage cfg s now = (true, "ok")) ∧
    (∀ k, CanSendMessage cfg { s with consecutiveCount := k } now = CanSendMessage cfg s now) ∧
    (cfg.DailySearches ≤ s.searchCount →
      CanSearch cfg s = (false, dailySearchMsg s.searchCount cfg.DailySearches)) ∧
    (s.searchCount < cfg.DailySearches → CanSearch cfg s = (true, "ok")) ∧
    (∀ c m tc tm k r,
      CanSearch cfg { s with connectionCount := c, messageCount := m, lastConnection := tc,
                             lastMessage := tm, consecutiveCount := k, lastReset := r }
        = CanSearch cfg s) := by
  refine ⟨?_, ?_, ?_, ?_, ?_, ?_, ?_, ?_, ?_, ?_, ?_⟩
  · intro h
    simp only [CanSendConnection, if_pos h]
  · intro t h1 h2 h3
    simp only [CanSendConnection, if_neg (by omega : ¬ cfg.DailyConnections ≤ s.connectionCount),
      h2, if_pos h3]
  · intro h1 h2 h3
    simp only [CanSendConnection, if_neg (by omega : ¬ cfg.DailyConnections ≤ s.connectionCount)]
    cases hc : s.lastConnection with
    | none => simp only [consecutiveGate, if_pos h3]
    | some t =>
      simp only [connCooldownPassed, hc, decide_eq_true_eq] at h2
      simp only [if_neg (by omega : ¬ now - t < cfg.ConnectionCooldown),
        consecutiveGate, if_pos h3]
  · intro h1 h2 h3
    simp only [CanSendConnection, if_neg (by omega : ¬ cfg.DailyConnections ≤ s.connectionCount)]
    cases hc : s.lastConnection with
    | none =>
      simp only [consecutiveGate, if_neg (by omega : ¬ cfg.MaxConsecutiveActions ≤ s.consecutiveCount)]
    | some t =>
      simp only [connCooldownPassed, hc, decide_eq_true_eq] at h2
      simp only [if_neg (by omega : ¬ now - t < cfg.ConnectionCooldown),
        consecutiveGate, if_neg (by omega : ¬ cfg.MaxConsecutiveActions ≤ s.consecutiveCount)]
  · intro h
    simp only [CanSendMessage, if_pos h]
  · intro t h1 h2 h3
    simp only [CanSendMessage, if_neg (by omega : ¬ cfg.DailyMessages ≤ s.messageCount),
      h2, if_pos h3]
  · intro h1 h2
    simp only [CanSendMessage, if_neg (by omega : ¬ cfg.DailyMessages ≤ s.messageCount)]
    cases hc : s.lastMessage with
    | none => rfl
    | some t =>
      simp only [msgCooldownPassed, hc, decide_eq_true_eq] at h2
      simp only [if_neg (by omega : ¬ now - t < cfg.MessageCooldown)]
  · intro k
    simp only [CanSendMessage]
  · intro h
    simp only [CanSearch, if_pos h]
  · intro h
    simp only [CanSearch, if_neg (by omega : ¬ cfg.DailySearches ≤ s.searchCount)]
  · intro c m tc tm k r
    simp only [CanSearch]

/-- Witness for C4: on a fresh limiter with the default configuration all
three gates pass and `CanSendConnection` answers `(true, "ok")`. -/
theorem canSend_gate_order_witness :
    CanSendConnection cfgDefault (NewLimits 0) 0 = (true, "ok") :=
  (canSend_gate_order cfgDefault (NewLimits 0) 0).2.2.2.1
    (by decide) (by decide) (by decide)

/-- Claim C1 counterexample: with the default configuration (cap 50,
5-minute connection cooldown), after 50 `RecordConnection` calls and an
immediate `ResetDaily`, `CanSendConnection` does not answer `(true, "ok")`:
`ResetDaily` leaves `lastConnection` in place, so the cooldown gate still
fires. -/
theorem c1_resetDaily_counterexample :
    CanSendConnection cfgDefault (ResetDaily limits50 0) 0
        = (false, "connection cooldown active (wait 5m0s)") ∧
    ((false, "connection cooldown active (wait 5m0s)") : Bool × String) ≠ (true, "ok") := by
  constructor
  · decide
  · decide

/-- Claim C1 as amended: after 50 recorded connections with a daily cap of
50, `CanSendConnection` answers exactly
`(false, "daily connection limit reached (50/50)")`; after `ResetDaily` it
answers `(true, "ok")` provided the daily cap and the consecutive ceiling
are positive and the connection cooldown has already elapsed since the last
recorded connection (with a positive cooldown an immediate re-check still
reports the cooldown, since `ResetDaily` does not clear `lastConnection`). -/
theorem c1_limit_then_reset :
    (∀ (ts : List Int) (s : LimitState),
      (recordConnectionSeq s ts).connectionCount = s.connectionCount + ts.length) ∧
    (∀ (cfg : LimitsConfig) (s : LimitState) (now : Int),
      cfg.DailyConnections = 50 → s.connectionCount = 50 →
      CanSendConnection cfg s now = (false, "daily connection limit reached (50/50)")) ∧
    (∀ (cfg : LimitsConfig) (s : LimitState) (tReset now : Int),
      0 < cfg.DailyConnections → 0 < cfg.MaxConsecutiveActions →
      connCooldownPassed cfg (ResetDaily s tReset) now = true →
      CanSendConnection cfg (ResetDaily s tReset) now = (true, "ok")) := by
  refine ⟨?_, ?_, ?_⟩
  · intro ts
    induction ts with
    | nil => intro s; simp [recordConnectionSeq]
    | cons t ts ih =>
      intro s
      have h := ih (RecordConnection s t)
      simp only [recordConnectionSeq, List.foldl_cons] at h ⊢
      rw [h]
      simp only [RecordConnection, List.length_cons]
      omega
  · intro cfg s now h1 h2
    simp only [CanSendConnection, if_pos (by omega : cfg.DailyConnections ≤ s.connectionCount)]
    rw [h1, h2]
    decide
  · intro cfg s tReset now h1 h2 h3
    have hr : (ResetDaily s tReset).connectionCount = 0 := rfl
    have hk : (ResetDaily s tReset).consecutiveCount = 0 := rfl
    simp only [CanSendConnection,
      if_neg (by omega : ¬ cfg.DailyConnections ≤ (ResetDaily s tReset).connectionCount)]
    cases hc : (ResetDaily s tReset).lastConnection with
    | none =>
      simp only [consecutiveGate, hk,
        if_neg (by omega : ¬ cfg.MaxConsecutiveActions ≤ (0 : Int))]
    | some t =>
      simp only [connCooldownPassed, hc, decide_eq_true_eq] at h3
      simp only [if_neg (by omega : ¬ now - t < cfg.ConnectionCooldown),
        consecutiveGate, hk, if_neg (by omega : ¬ cfg.MaxConsecutiveActions ≤ (0 : Int))]

/-- Witness for C1 (amended): with the default configuration, checking
five minutes after the 50th connection and the reset yields `(true, "ok")`. -/
theorem c1_limit_then_reset_witness :
    CanSendConnection cfgDefault (ResetDaily limits50 0) (5 * nsPerMinute) = (true, "ok") :=
  c1_limit_then_reset.2.2 cfgDefault limits50 0 (5 * nsPerMinute)
    (by decide) (by decide) (by decide)

/-- Claim C5: `ShouldResetDaily` is true exactly when the day-of-month of
the last reset differs from the current day-of-month; in particular for
2024-01-15 and 2024-02-15 (31 days apart, both the 15th) it is false even
though the instants differ. -/
theorem shouldResetDaily_day_of_month :
    (∀ (s : LimitState) (now : Int),
      ShouldResetDaily s now = true ↔ dayOfMonth s.lastReset ≠ dayOfMonth now) ∧
    (19737 * nsPerDay : Int) ≠ (19737 + 31) * nsPerDay ∧
    dayOfMonth (19737 * nsPerDay) = 15 ∧
    dayOfMonth ((19737 + 31) * nsPerDay) = 15 ∧
    ShouldResetDaily (NewLimits (19737 * nsPerDay)) ((19737 + 31) * nsPerDay) = false := by
  refine ⟨?_, by decide, by decide, by decide, by decide⟩
  intro s now
  simp [ShouldResetDaily]

open LimitsOp in
/-- Claim C6: no `Limits` method other than `ResetDaily` and
`ResetConsecutiveCount` ever decreases a counter; the `CanSend*`/`CanSearch`
checks, `ShouldResetDaily`, the `Get*` accessors, `GetStats` and the
cooldown waits leave the state unchanged; the `Record*` methods only
increment their counters and update last-sent timestamps; the two resets
zero exactly the counters their bodies zero. -/
theorem limits_frame (op : LimitsOp) (now : Int) (s : LimitState) :
    (op ≠ resetDailyOp → op ≠ resetConsecutiveOp →
      s.connectionCount ≤ (op.step now s).connectionCount ∧
      s.messageCount ≤ (op.step now s).messageCount ∧
      s.searchCount ≤ (op.step now s).searchCount ∧
      s.consecutiveCount ≤ (op.step now s).consecutiveCount) ∧
    (op = canSendConnectionOp ∨ op = canSendMessageOp ∨ op = canSearchOp ∨
      op = shouldResetDailyOp ∨ op = getConnectionCountOp ∨ op = getMessageCountOp ∨
      op = getSearchCountOp ∨ op = getRemainingConnectionsOp ∨ op = getRemainingMessagesOp ∨
      op = getStatsOp ∨ op = waitForConnectionCooldownOp ∨ op = waitForMessageCooldownOp →
      op.step now s = s) ∧
    (step recordConnectionOp now s =
      { s with connectionCount := s.connectionCount + 1, lastConnection := some now,
               consecutiveCount := s.consecutiveCount + 1 }) ∧
    (step recordMessageOp now s =
      { s with messageCount := s.messageCount + 1, lastMessage := some now }) ∧
    (step recordSearchOp now s = { s with searchCount := s.searchCount + 1 }) ∧
    ((step resetDailyOp now s).connectionCount = 0 ∧
      (step resetDailyOp now s).messageCount = 0 ∧
      (step resetDailyOp now s).searchCount = 0 ∧
      (step resetDailyOp now s).consecutiveCount = 0 ∧
      (step resetDailyOp now s).lastConnection = s.lastConnection ∧
      (step resetDailyOp now s).lastMessage = s.lastMessage) ∧
    ((step resetConsecutiveOp now s).consecutiveCount = 0 ∧
      (step resetConsecutiveOp now s).connectionCount = s.connectionCount ∧
      (step resetConsecutiveOp now s).messageCount = s.messageCount ∧
      (step resetConsecutiveOp now s).searchCount = s.searchCount) := by
  refine ⟨?_, ?_, rfl, rfl, rfl, ⟨rfl, rfl, rfl, rfl, rfl, rfl⟩, ⟨rfl, rfl, rfl, rfl⟩⟩
  · intro h1 h2
    cases op <;>
      simp [LimitsOp.step, RecordConnection, RecordMessage, RecordSearch] at h1 h2 ⊢
  · intro h
    rcases h with h | h | h | h | h | h | h | h | h | h | h | h <;> subst h <;> rfl

open LimitsOp in
/-- Witness for C6: `RecordConnection` does not decrease the connection
counter on a fresh limiter. -/
theorem limits_frame_witness :
    (NewLimits 0).connectionCount ≤ (step recordConnectionOp 7 (NewLimits 0)).connectionCount :=
  ((limits_frame recordConnectionOp 7 (NewLimits 0)).1 (by decide) (by decide)).1

/-- Claim C2 counterexample: in a fatigued controller (counter at the
default threshold of 20, multiplier 1.5) `ShortPause` returns exactly the
same value as in a freshly reset controller — it is not multiplied by the
fatigue multiplier (here for the 500 ms draw: 500 ms, not 750 ms). -/
theorem c2_fatigue_counterexample :
    Timing.ShortPause timingFatigued 500 = Timing.ShortPause (Timing.ResetFatigue timingFatigued) 500 ∧
    Timing.ShortPause timingFatigued 500 ≠
      truncQ ((Timing.ShortPause (Timing.ResetFatigue timingFatigued) 500 : ℚ) *
        timingFatigued.config.FatigueMultiplier) := by
  have h1 : Timing.ShortPause timingFatigued 500 = 500000000 := by decide
  have h2 : Timing.ShortPause (Timing.ResetFatigue timingFatigued) 500 = 500000000 := by decide
  have h3 : ((500000000 : Int) : ℚ) * timingFatigued.config.FatigueMultiplier
      = ((750000000 : Int) : ℚ) := by
    show ((500000000 : Int) : ℚ) * (3 / 2) = ((750000000 : Int) : ℚ)
    norm_num
  refine ⟨by rw [h1, h2], ?_⟩
  rw [h1, h2, h3, truncQ_intCast]
  decide

/-- Claim C2 as amended: once the action counter has reached the fatigue
threshold, `ActionDelay` — and only `ActionDelay` — multiplies its drawn
delay by the fatigue multiplier, and keeps doing so (the counter only
grows) until `ResetFatigue` zeroes the counter and the flag; `PageLoadDelay`,
`ShortPause`, `MediumPause`, `LongPause`, `ThinkingDelay` and `ReadingTime`
are unaffected by the fatigue state. -/
theorem timing_fatigue_only_action_delay (t : Timing) (draw : ℚ) :
    (t.config.FatigueAfter ≤ t.actionCount →
      (t.ActionDelay draw).1 =
        truncQ ((logNormalDelay t.config.MinActionDelay t.config.MaxActionDelay draw : ℚ) *
          t.config.FatigueMultiplier) ∧
      (t.ActionDelay draw).2.fatigueActive = true ∧
      t.config.FatigueAfter ≤ (t.ActionDelay draw).2.actionCount) ∧
    (t.actionCount < t.config.FatigueAfter →
      (t.ActionDelay draw).1 = logNormalDelay t.config.MinActionDelay t.config.MaxActionDelay draw) ∧
    (∀ u : Timing,
      u.PageLoadDelay draw = t.PageLoadDelay draw ∧
      u.ShortPause draw = t.ShortPause draw ∧
      u.MediumPause draw = t.MediumPause draw ∧
      u.LongPause draw = t.LongPause draw ∧
      u.ThinkingDelay draw = t.ThinkingDelay draw ∧
      ∀ (wc : Int) (variance : ℚ), u.ReadingTime wc variance = t.ReadingTime wc variance) ∧
    (t.ResetFatigue.actionCount = 0 ∧ t.ResetFatigue.fatigueActive = false) := by
  refine ⟨?_, ?_, ?_, rfl, rfl⟩
  · intro h
    simp only [Timing.ActionDelay]
    rw [if_pos h]
    exact ⟨rfl, rfl, by show t.config.FatigueAfter ≤ t.actionCount + 1; omega⟩
  · intro h
    simp only [Timing.ActionDelay]
    rw [if_neg (by omega : ¬ t.config.FatigueAfter ≤ t.actionCount)]
  · intro u
    exact ⟨rfl, rfl, rfl, rfl, rfl, fun wc variance => rfl⟩

/-- Claim C3 counterexample: on a page whose checkpoint marker elements
are all present but not visible, `Detect` classifies the page as
`CheckpointRestricted`, not `CheckpointNone`: `hasAccountRestriction`
(and `hasUnusualActivity`) never consult visibility. -/
theorem c3_invisible_markers_counterexample :
    Detect invisibleMarkersPage = (CheckpointType.restricted, "Account has been restricted") ∧
    invisibleMarkersPage.query ".account-restricted" = some { visible := false, text := "" } ∧
    ((CheckpointType.restricted, "Account has been restricted") : CheckpointType × String) ≠
      (CheckpointType.none, "") := by
  refine ⟨by decide, by decide, by decide⟩

/-- Claim C3 as amended: the CAPTCHA, 2FA and (element half of the)
verification predicates fire only on a present-and-visible element, and
verification can also fire on a challenge URL path; but the restriction
and unusual-activity predicates fire on mere element presence, ignoring
visibility.  Consequently a page whose CAPTCHA/2FA/verification markers
are present but invisible is classified `CheckpointNone` only under the
additional conditions that no restriction or unusual-activity marker
element is present, the body text carries no restriction or
unusual-activity phrase, and the URL contains no challenge path. -/
theorem checkpoint_visibility (p : Page) :
    (hasCAPTCHA p = true →
      ∃ sel ∈ captchaSelectors, ∃ e, p.query sel = some e ∧ e.visible = true) ∧
    (has2FA p = true →
      ∃ sel ∈ twoFASelectors, ∃ e, p.query sel = some e ∧ e.visible = true) ∧
    (hasVerificationChallenge p = true →
      (∃ sel ∈ verificationSelectors, ∃ e, p.query sel = some e ∧ e.visible = true) ∨
      (∃ path ∈ verificationPaths, contains p.url path = true)) ∧
    (∀ sel ∈ restrictionSelectors, (p.query sel).isSome = true →
      hasAccountRestriction p = true) ∧
    (∀ sel ∈ unusualSelectors, (p.query sel).isSome = true →
      hasUnusualActivity p = true) ∧
    ((∀ sel ∈ captchaSelectors ++ twoFASelectors ++ verificationSelectors,
        ∀ e, p.query sel = some e → e.visible = false) →
      (∀ sel ∈ restrictionSelectors ++ unusualSelectors, p.query sel = Option.none) →
      (∀ e, p.query "body" = some e →
        (∀ k ∈ restrictionKeywords, contains e.text k = false) ∧
        contains e.text "unusual activity" = false ∧
        contains e.text "verify your identity" = false) →
      (∀ path ∈ verificationPaths, contains p.url path = false) →
      Detect p = (CheckpointType.none, "")) := by
  refine ⟨?_, ?_, ?_, ?_, ?_, ?_⟩
  · intro h
    obtain ⟨sel, hmem, hq⟩ := List.any_eq_true.mp h
    cases heq : p.query sel with
    | none => simp [queryVisible, heq] at hq
    | some e =>
      refine ⟨sel, hmem, e, heq, ?_⟩
      simpa [queryVisible, heq] using hq
  · intro h
    obtain ⟨sel, hmem, hq⟩ := List.any_eq_true.mp h
    cases heq : p.query sel with
    | none => simp [queryVisible, heq] at hq
    | some e =>
      refine ⟨sel, hmem, e, heq, ?_⟩
      simpa [queryVisible, heq] using hq
  · intro h
    rcases Bool.or_eq_true_iff.mp h with h | h
    · left
      obtain ⟨sel, hmem, hq⟩ := List.any_eq_true.mp h
      cases heq : p.query sel with
      | none => simp [queryVisible, heq] at hq
      | some e =>
        refine ⟨sel, hmem, e, heq, ?_⟩
        simpa [queryVisible, heq] using hq
    · right
      exact List.any_eq_true.mp h
  · intro sel hmem hsome
    have : restrictionSelectors.any (queryFound p) = true :=
      List.any_eq_true.mpr ⟨sel, hmem, hsome⟩
    simp [hasAccountRestriction, this]
  · intro sel hmem hsome
    have : unusualSelectors.any (queryFound p) = true :=
      List.any_eq_true.mpr ⟨sel, hmem, hsome⟩
    simp [hasUnusualActivity, this]
  · intro hv hr hb hu
    have noneVisible : ∀ (l : List String),
        (∀ sel ∈ l, ∀ e, p.query sel = some e → e.visible = false) →
        l.any (queryVisible p) = false := by
      intro l hl
      rw [List.any_eq_false]
      intro sel hmem
      cases heq : p.query sel with
      | none => simp [queryVisible, heq]
      | some e => simp [queryVisible, heq, hl sel hmem e heq]
    have hc : hasCAPTCHA p = false :=
      noneVisible _ fun sel hmem e heq =>
        hv sel (List.mem_append_left _ (List.mem_append_left _ hmem)) e heq
    have h2 : has2FA p = false :=
      noneVisible _ fun sel hmem e heq =>
        hv sel (List.mem_append_left _ (List.mem_append_right _ hmem)) e heq
    have hverSel : verificationSelectors.any (queryVisible p) = false :=
      noneVisible _ fun sel hmem e heq => hv sel (List.mem_append_right _ hmem) e heq
    have hverPath : verificationPaths.any (fun path => contains p.url path) = false := by
      rw [List.any_eq_false]
      intro path hmem
      simp [hu path hmem]
    have hver : hasVerificationChallenge p = false := by
      simp [hasVerificationChallenge, hverSel, hverPath]
    have hresSel : restrictionSelectors.any (queryFound p) = false := by
      rw [List.any_eq_false]
      intro sel hmem
      simp [queryFound, hr sel (List.mem_append_left _ hmem)]
    have hunSel : unusualSelectors.any (queryFound p) = false := by
      rw [List.any_eq_false]
      intro sel hmem
      simp [queryFound, hr sel (List.mem_append_right _ hmem)]
    have hres : hasAccountRestriction p = false := by
      rw [hasAccountRestriction, hresSel]
      cases hbq : p.query "body" with
      | none => rfl
      | some e =>
        have hk := (hb e hbq).1
        simp only [Bool.false_or]
        rw [List.any_eq_false]
        intro k hkm
        simp [hk k hkm]
    have hun : hasUnusualActivity p = false := by
      rw [hasUnusualActivity, hunSel]
      cases hbq : p.query "body" with
      | none => rfl
      | some e =>
        have hk := hb e hbq
        simp [hk.2.1, hk.2.2]
    simp [Detect, hc, h2, hver, hres, hun]

/-- Witness for C3 (amended): on the fixture page whose CAPTCHA, 2FA and
verification markers are present but invisible and which carries no
restriction or unusual-activity signal, `Detect` answers `CheckpointNone`. -/
theorem checkpoint_visibility_witness :
    Detect cleanInvisiblePage = (CheckpointType.none, "") := by
  refine (checkpoint_visibility cleanInvisiblePage).2.2.2.2.2 ?_ ?_ ?_ ?_
  · intro sel hmem e hq
    simp only [cleanInvisiblePage] at hq
    rw [if_pos hmem] at hq
    cases hq
    rfl
  · intro sel hmem
    simp only [cleanInvisiblePage]
    rw [if_neg (by fin_cases hmem <;> decide)]
  · intro e hq
    simp only [cleanInvisiblePage] at hq
    rw [if_neg (by decide)] at hq
    cases hq
  · intro path hmem
    fin_cases hmem <;> decide

/-- Witness for C2 (amended): at the default threshold the fatigued
controller's `ActionDelay` is the multiplied draw. -/
theorem timing_fatigue_only_action_delay_witness :
    (Timing.ActionDelay timingFatigued 500).1 =
      truncQ ((logNormalDelay timingFatigued.config.MinActionDelay
        timingFatigued.config.MaxActionDelay 500 : ℚ) *
        timingFatigued.config.FatigueMultiplier) :=
  ((timing_fatigue_only_action_delay timingFatigued 500).1 (by decide)).1

/-- Helper: `dedupGo` yields a subsequence of its input. -/
theorem dedupGo_sublist (l : List ProfileResult) :
    ∀ seen, List.Sublist (dedupGo seen l) l := by
  induction l with
  | nil => intro seen; simp [dedupGo]
  | cons p ps ih =>
    intro seen
    simp only [dedupGo]
    by_cases hmem : p.ProfileURL ∈ seen
    · rw [if_pos hmem]
      exact (ih seen).cons p
    · rw [if_neg hmem]
      exact (ih _).cons₂ p

/-- Helper: URLs kept by `dedupGo` were not in the `seen` set. -/
theorem dedupGo_not_mem_seen (l : List ProfileResult) :
    ∀ seen q, q ∈ dedupGo seen l → q.ProfileURL ∉ seen := by
  induction l with
  | nil => intro seen q hq; simp [dedupGo] at hq
  | cons p ps ih =>
    intro seen q hq
    simp only [dedupGo] at hq
    by_cases hmem : p.ProfileURL ∈ seen
    · rw [if_pos hmem] at hq
      exact ih seen q hq
    · rw [if_neg hmem] at hq
      rcases List.mem_cons.mp hq with rfl | hq2
      · exact hmem
      · intro hs
        exact ih _ q hq2 (List.mem_cons_of_mem _ hs)

/-- Helper: every element kept by `dedupGo` is the first element of the
input carrying its URL. -/
theorem dedupGo_find (l : List ProfileResult) :
    ∀ seen q, q ∈ dedupGo seen l →
      l.find? (fun r => r.ProfileURL == q.ProfileURL) = some q := by
  induction l with
  | nil => intro seen q hq; simp [dedupGo] at hq
  | cons p ps ih =>
    intro seen q hq
    simp only [dedupGo] at hq
    by_cases hmem : p.ProfileURL ∈ seen
    · rw [if_pos hmem] at hq
      have hne : q.ProfileURL ∉ seen := dedupGo_not_mem_seen ps seen q hq
      have hneq : p.ProfileURL ≠ q.ProfileURL := fun h => hne (h ▸ hmem)
      simp only [List.find?_cons, beq_eq_false_iff_ne.mpr hneq]
      exact ih seen q hq
    · rw [if_neg hmem] at hq
      rcases List.mem_cons.mp hq with rfl | hq2
      · simp [List.find?_cons]
      · have hne : q.ProfileURL ∉ p.ProfileURL :: seen :=
          dedupGo_not_mem_seen ps _ q hq2
        have hneq : p.ProfileURL ≠ q.ProfileURL := by
          intro h
          exact hne (by rw [← h]; exact List.mem_cons_self _ _)
        simp only [List.find?_cons, beq_eq_false_iff_ne.mpr hneq]
        exact ih _ q hq2

/-- Helper: the URLs kept by `dedupGo` are pairwise distinct. -/
theorem dedupGo_nodup (l : List ProfileResult) :
    ∀ seen, ((dedupGo seen l).map ProfileResult.ProfileURL).Nodup := by
  induction l with
  | nil => intro seen; simp [dedupGo]
  | cons p ps ih =>
    intro seen
    simp only [dedupGo]
    by_cases hmem : p.ProfileURL ∈ seen
    · rw [if_pos hmem]
      exact ih seen
    · rw [if_neg hmem]
      simp only [List.map_cons, List.nodup_cons]
      refine ⟨?_, ih _⟩
      intro hmem2
      obtain ⟨q, hq, heq⟩ := List.mem_map.mp hmem2
      exact dedupGo_not_mem_seen ps _ q hq (by rw [heq]; exact List.mem_cons_self _ _)

/-- Helper: every input URL survives deduplication (or was already seen). -/
theorem dedupGo_covers (l : List ProfileResult) :
    ∀ seen p, p ∈ l →
      p.ProfileURL ∈ seen ∨ ∃ q ∈ dedupGo seen l, q.ProfileURL = p.ProfileURL := by
  induction l with
  | nil => intro seen p hp; simp at hp
  | cons r ps ih =>
    intro seen p hp
    simp only [dedupGo]
    by_cases hmem : r.ProfileURL ∈ seen
    · rw [if_pos hmem]
      rcases List.mem_cons.mp hp with rfl | hp2
      · exact Or.inl hmem
      · exact ih seen p hp2
    · rw [if_neg hmem]
      rcases List.mem_cons.mp hp with rfl | hp2
      · exact Or.inr ⟨p, List.mem_cons_self _ _, rfl⟩
      · rcases ih (r.ProfileURL :: seen) p hp2 with hin | ⟨q, hq, heq⟩
        · rcases List.mem_cons.mp hin with he | hs
          · exact Or.inr ⟨r, List.mem_cons_self _ _, he.symm ▸ rfl⟩
          · exact Or.inl hs
        · exact Or.inr ⟨q, List.mem_cons_of_mem _ hq, heq⟩

/-- Helper: on a URL-nodup list disjoint from `seen`, `dedupGo` is the
identity. -/
theorem dedupGo_eq_self (l : List ProfileResult) :
    ∀ seen, (∀ p ∈ l, p.ProfileURL ∉ seen) →
      (l.map ProfileResult.ProfileURL).Nodup → dedupGo seen l = l := by
  induction l with
  | nil => intro seen _ _; rfl
  | cons p ps ih =>
    intro seen hseen hnd
    simp only [List.map_cons, List.nodup_cons] at hnd
    simp only [dedupGo]
    rw [if_neg (hseen p (List.mem_cons_self _ _))]
    congr 1
    apply ih
    · intro r hr hmem
      rcases List.mem_cons.mp hmem with he | hs
      · exact hnd.1 (List.mem_map.mpr ⟨r, hr, he⟩)
      · exact hseen r (List.mem_cons_of_mem _ hr) hs
    · exact hnd.2

/-- Helper: `dedupGo` commutes with any URL-preserving rewrite of the
other fields. -/
theorem dedupGo_map (g : ProfileResult → ProfileResult)
    (hg : ∀ p, (g p).ProfileURL = p.ProfileURL) (l : List ProfileResult) :
    ∀ seen, dedupGo seen (l.map g) = (dedupGo seen l).map g := by
  induction l with
  | nil => intro seen; rfl
  | cons p ps ih =>
    intro seen
    simp only [List.map_cons, dedupGo, hg]
    by_cases hmem : p.ProfileURL ∈ seen
    · rw [if_pos hmem, if_pos hmem]
      exact ih seen
    · rw [if_neg hmem, if_neg hmem, List.map_cons, ih (p.ProfileURL :: seen)]

/-- Helper: the connectable filter is `List.filter` on `!IsConnected`. -/
theorem filterConnectable_eq_filter (l : List ProfileResult) :
    FilterConnectable l = l.filter fun p => !p.IsConnected := by
  induction l with
  | nil => rfl
  | cons p ps ih =>
    cases hp : p.IsConnected <;> simp [FilterConnectable, List.filter_cons, hp, ih]

/-- Helper: the connectable filter commutes with any `IsConnected`-
preserving rewrite of the other fields. -/
theorem filterConnectable_map (g : ProfileResult → ProfileResult)
    (hg : ∀ p, (g p).IsConnected = p.IsConnected) (l : List ProfileResult) :
    FilterConnectable (l.map g) = (FilterConnectable l).map g := by
  induction l with
  | nil => rfl
  | cons p ps ih =>
    cases hp : p.IsConnected <;> simp [FilterConnectable, hg, hp, ih]

/-- Claim C8: `DeduplicateProfiles` keeps, in order, exactly the first
occurrence of each `ProfileURL` (the result is a subsequence with pairwise
distinct URLs covering every input URL) and is idempotent;
`FilterConnectable` keeps, in order, exactly the profiles with
`IsConnected = false` and is idempotent; both are insensitive to every
field other than `ProfileURL` resp. `IsConnected` and never modify a
retained element. -/
theorem dedup_filter_pure (l : List ProfileResult) :
    List.Sublist (DeduplicateProfiles l) l ∧
    ((DeduplicateProfiles l).map ProfileResult.ProfileURL).Nodup ∧
    (∀ q ∈ DeduplicateProfiles l,
      l.find? (fun r => r.ProfileURL == q.ProfileURL) = some q) ∧
    (∀ p ∈ l, ∃ q ∈ DeduplicateProfiles l, q.ProfileURL = p.ProfileURL) ∧
    DeduplicateProfiles (DeduplicateProfiles l) = DeduplicateProfiles l ∧
    List.Sublist (FilterConnectable l) l ∧
    FilterConnectable l = l.filter (fun p => !p.IsConnected) ∧
    (∀ p ∈ FilterConnectable l, p.IsConnected = false) ∧
    (∀ p ∈ l, p.IsConnected = false → p ∈ FilterConnectable l) ∧
    FilterConnectable (FilterConnectable l) = FilterConnectable l ∧
    (∀ g : ProfileResult → ProfileResult, (∀ p, (g p).ProfileURL = p.ProfileURL) →
      DeduplicateProfiles (l.map g) = (DeduplicateProfiles l).map g) ∧
    (∀ g : ProfileResult → ProfileResult, (∀ p, (g p).IsConnected = p.IsConnected) →
      FilterConnectable (l.map g) = (FilterConnectable l).map g) := by
  refine ⟨dedupGo_sublist l [], dedupGo_nodup l [], fun q hq => dedupGo_find l [] q hq,
    ?_, ?_, ?_, filterConnectable_eq_filter l, ?_, ?_, ?_,
    fun g hg => dedupGo_map g hg l [], fun g hg => filterConnectable_map g hg l⟩
  · intro p hp
    rcases dedupGo_covers l [] p hp with hin | h
    · simp at hin
    · exact h
  · exact dedupGo_eq_self _ [] (by simp) (dedupGo_nodup l [])
  · rw [filterConnectable_eq_filter]
    exact List.filter_sublist l
  · intro p hp
    rw [filterConnectable_eq_filter] at hp
    have := (List.mem_filter.mp hp).2
    simpa using this
  · intro p hp hc
    rw [filterConnectable_eq_filter]
    exact List.mem_filter.mpr ⟨hp, by simp [hc]⟩
  · rw [filterConnectable_eq_filter l, filterConnectable_eq_filter]
    exact List.filter_eq_self.mpr fun a ha => (List.mem_filter.mp ha).2

/-- A profile fixture used by witnesses. -/
def profileA : ProfileResult :=
  { ProfileURL := "https://www.linkedin.com/in/a", Name := "A", Headline := "",
    Location := "", ImageURL := "", IsConnected := false, ConnectionDegree := "2nd" }

/-- A second profile fixture used by witnesses. -/
def profileB : ProfileResult :=
  { ProfileURL := "https://www.linkedin.com/in/b", Name := "B", Headline := "",
    Location := "", ImageURL := "", IsConnected := true, ConnectionDegree := "1st" }

/-- Witness for C8: deduplication commutes with a URL-preserving rewrite
on a concrete list with a duplicate. -/
theorem dedup_filter_pure_witness :
    DeduplicateProfiles ([profileA, profileB, profileA].map id) =
      (DeduplicateProfiles [profileA, profileB, profileA]).map id :=
  (dedup_filter_pure [profileA, profileB, profileA]).2.2.2.2.2.2.2.2.2.2.1
    id (fun _ => rfl)

/-- Helper: the cubic Bézier at parameter 0 is its first control point. -/
theorem cubicBezier_zero (p0 p1 p2 p3 : Point) : cubicBezier 0 p0 p1 p2 p3 = p0 := by
  cases p0 with
  | mk x y =>
    simp only [cubicBezier]
    congr 1 <;> ring

/-- Helper: the cubic Bézier at parameter 1 is its last control point. -/
theorem cubicBezier_one (p0 p1 p2 p3 : Point) : cubicBezier 1 p0 p1 p2 p3 = p3 := by
  cases p3 with
  | mk x y =>
    simp only [cubicBezier]
    congr 1 <;> ring

/-- Claim C7: for step bounds with `2 ≤ MinSteps ≤ MaxSteps` and any drawn
step count within them, the generated path has exactly that many points
(hence within `[MinSteps, MaxSteps]`), starts exactly at the start point,
and ends exactly at the end point, for every outcome of the control-point
draws. -/
theorem bezier_path_endpoints (start finish off1 off2 : Point)
    (minSteps maxSteps steps : Nat) (h2 : 2 ≤ minSteps)
    (hlo : minSteps ≤ steps) (hhi : steps ≤ maxSteps) :
    (generateBezierPath start finish steps off1 off2).length = steps ∧
    minSteps ≤ (generateBezierPath start finish steps off1 off2).length ∧
    (generateBezierPath start finish steps off1 off2).length ≤ maxSteps ∧
    (generateBezierPath start finish steps off1 off2).head? = some start ∧
    (generateBezierPath start finish steps off1 off2).getLast? = some finish := by
  have hlen : (generateBezierPath start finish steps off1 off2).length = steps := by
    simp only [generateBezierPath, List.length_map, List.length_range]
  refine ⟨hlen, by rw [hlen]; exact hlo, by rw [hlen]; exact hhi, ?_, ?_⟩
  · simp only [generateBezierPath, List.head?_eq_getElem?, List.getElem?_map,
      List.getElem?_range (show 0 < steps by omega), Option.map_some']
    rw [Nat.cast_zero, zero_div, cubicBezier_zero]
  · rw [List.getLast?_eq_getElem?, hlen]
    simp only [generateBezierPath, List.getElem?_map,
      List.getElem?_range (show steps - 1 < steps by omega), Option.map_some']
    have hne : ((steps - 1 : Nat) : ℚ) ≠ 0 := Nat.cast_ne_zero.mpr (by omega)
    rw [div_self hne, cubicBezier_one]

/-- Witness for C7: a concrete 12-step path between two concrete points
with concrete control-point offsets starts at its start point. -/
theorem bezier_path_endpoints_witness :
    (generateBezierPath { X := 960, Y := 540 } { X := 100, Y := 200 } 12
      { X := 5, Y := -7 } { X := -3, Y := 4 }).head? = some { X := 960, Y := 540 } :=
  (bezier_path_endpoints { X := 960, Y := 540 } { X := 100, Y := 200 }
    { X := 5, Y := -7 } { X := -3, Y := 4 } 10 25 12
    (by decide) (by decide) (by decide)).2.2.2.1

/-- Helper: `applyKeys` processes an appended keystroke list in two
stages. -/
theorem applyKeys_append (ks1 ks2 : List KeyStroke) :
    ∀ field, applyKeys field (ks1 ++ ks2) = applyKeys (applyKeys field ks1) ks2 := by
  induction ks1 with
  | nil => intro field; rfl
  | cons k ks ih =>
    intro field
    cases k <;> simp only [List.cons_append, applyKeys] <;> exact ih _

/-- Helper: the random typo letter always comes from the lowercase pool. -/
theorem getRandomChar_mem (idx : Nat) : getRandomChar idx ∈ typoChars := by
  unfold getRandomChar List.getD
  cases heq : typoChars.get? idx with
  | none =>
    rw [Option.getD_none]
    decide
  | some c =>
    rw [Option.getD_some]
    exact List.get?_mem heq

/-- Helper: a word's keystrokes, applied to any field content, append
exactly the word: each typo's wrong letter is removed again by its
Backspace before the correct character is typed. -/
theorem applyKeys_typeWordGo (errorRate : ℚ) (errDraws : Nat → ℚ)
    (wrongDraws : Nat → Nat) (cs : List Char) :
    ∀ i field, applyKeys field (typeWordGo errorRate errDraws wrongDraws i cs) = field ++ cs := by
  induction cs with
  | nil => intro i field; simp [typeWordGo, applyKeys]
  | cons c cs ih =>
    intro i field
    simp only [typeWordGo]
    by_cases hcond : (shouldMakeError errorRate (errDraws i) && decide (0 < i)) = true
    · rw [if_pos hcond, applyKeys_append]
      have hd : applyKeys field
          [KeyStroke.key (getRandomChar (wrongDraws i)), KeyStroke.backspace, KeyStroke.key c]
          = field ++ [c] := by
        simp [applyKeys]
      rw [hd, ih]
      simp
    · rw [if_neg hcond, applyKeys_append]
      have hd : applyKeys field [KeyStroke.key c] = field ++ [c] := rfl
      rw [hd, ih]
      simp

/-- Helper: Backspace count of a word's keystrokes equals the number of
non-first positions at which the error draw fired. -/
theorem typeWordGo_count (errorRate : ℚ) (errDraws : Nat → ℚ)
    (wrongDraws : Nat → Nat) (cs : List Char) :
    ∀ i, (typeWordGo errorRate errDraws wrongDraws i cs).count KeyStroke.backspace =
      ((List.range' i cs.length).filter fun j =>
        shouldMakeError errorRate (errDraws j) && decide (0 < j)).length := by
  induction cs with
  | nil => intro i; simp [typeWordGo, List.range']
  | cons c cs ih =>
    intro i
    have hr : List.range' i (c :: cs).length = i :: List.range' (i + 1) cs.length := by
      simp [List.range']
    rw [hr]
    simp only [typeWordGo, List.filter_cons]
    have h1 : (KeyStroke.key c == KeyStroke.backspace) = false := rfl
    have h2 : (KeyStroke.backspace == KeyStroke.backspace) = true := rfl
    have h3 : (KeyStroke.key (getRandomChar (wrongDraws i)) == KeyStroke.backspace) = false := rfl
    by_cases hcond : (shouldMakeError errorRate (errDraws i) && decide (0 < i)) = true
    · rw [if_pos hcond, if_pos hcond]
      simp only [List.count_append, List.count_cons, List.count_nil, List.length_cons,
        ih, h1, h2, h3]
      simp
      omega
    · rw [if_neg hcond, if_neg (by simpa using hcond)]
      simp only [List.count_append, List.count_cons, List.count_nil, ih, h1]
      simp

/-- Helper: the wrong letters injected into a word's keystrokes come from
the typo pool; every other key is a character of the word. -/
theorem typeWordGo_key_mem (errorRate : ℚ) (errDraws : Nat → ℚ)
    (wrongDraws : Nat → Nat) (cs : List Char) :
    ∀ i c, KeyStroke.key c ∈ typeWordGo errorRate errDraws wrongDraws i cs →
      c ∈ cs ∨ c ∈ typoChars := by
  induction cs with
  | nil => intro i c h; simp [typeWordGo] at h
  | cons d ds ih =>
    intro i c h
    simp only [typeWordGo, List.mem_append] at h
    rcases h with h | h
    · by_cases hcond : (shouldMakeError errorRate (errDraws i) && decide (0 < i)) = true
      · rw [if_pos hcond] at h
        simp only [List.mem_cons, List.not_mem_nil, or_false] at h
        rcases h with h | h | h
        · cases h
          exact Or.inr (getRandomChar_mem _)
        · cases h
        · cases h
          exact Or.inl (List.mem_cons_self _ _)
      · rw [if_neg hcond] at h
        simp only [List.mem_singleton] at h
        cases h
        exact Or.inl (List.mem_cons_self _ _)
    · rcases ih (i + 1) c h with h2 | h2
      · exact Or.inl (List.mem_cons_of_mem _ h2)
      · exact Or.inr h2

/-- Helper: `splitGo` with accumulator `cur` prepends `cur` onto the
current maximal run and otherwise computes the spec-side word list. -/
theorem splitGo_eq (cs : List Char) :
    ∀ cur, splitGo cs cur =
      if cur.isEmpty then specWords cs
      else (cur ++ cs.takeWhile fun d => !isSeparator d) ::
        specWords (cs.dropWhile fun d => !isSeparator d) := by
  induction cs with
  | nil =>
    intro cur
    by_cases hc : cur.isEmpty <;>
      simp [splitGo, specWords, hc, List.takeWhile, List.dropWhile]
  | cons c cs ih =>
    intro cur
    have h0 : splitGo cs [] = specWords cs := by
      rw [ih []]
      simp
    by_cases hs : isSeparator c
    · have hsw : specWords (c :: cs) = specWords cs := by
        rw [specWords, if_pos hs]
      by_cases hc : cur.isEmpty
      · rw [splitGo, if_pos hs, if_pos hc, h0, if_pos hc, hsw]
      · rw [splitGo, if_pos hs, if_neg hc, h0, if_neg hc]
        rw [@List.takeWhile_cons_of_neg Char (fun d => !isSeparator d) c cs (by simp [hs]),
          @List.dropWhile_cons_of_neg Char (fun d => !isSeparator d) c cs (by simp [hs]), hsw]
        simp
    · have hp : (fun d => !isSeparator d) c = true := by simp [hs]
      have hsw : specWords (c :: cs) =
          (c :: cs.takeWhile fun d => !isSeparator d) ::
            specWords (cs.dropWhile fun d => !isSeparator d) := by
        rw [specWords, if_neg hs]
      have key : ∀ cur2 : List Char,
          (if cur2.isEmpty then specWords (c :: cs)
           else (cur2 ++ (c :: cs).takeWhile fun d => !isSeparator d) ::
             specWords ((c :: cs).dropWhile fun d => !isSeparator d))
          = (cur2 ++ c :: cs.takeWhile fun d => !isSeparator d) ::
              specWords (cs.dropWhile fun d => !isSeparator d) := by
        intro cur2
        by_cases hc : cur2.isEmpty
        · rw [if_pos hc, List.isEmpty_iff.mp hc, hsw]
          simp
        · rw [if_neg hc, @List.takeWhile_cons_of_pos Char (fun d => !isSeparator d) c cs hp,
            @List.dropWhile_cons_of_pos Char (fun d => !isSeparator d) c cs hp]
      rw [splitGo, if_neg hs, ih (cur ++ [c]),
        if_neg (by simp : ¬(cur ++ [c]).isEmpty = true), key cur]
      simp

/-- Helper: the source's word splitter computes exactly the spec-side
maximal runs. -/
theorem splitIntoWords_eq_specWords (text : List Char) :
    splitIntoWords text = specWords text := by
  rw [splitIntoWords, splitGo_eq]
  rfl

/-- Helper: no word produced by `splitGo` contains a separator, provided
the accumulator does not. -/
theorem splitGo_no_sep (cs : List Char) :
    ∀ cur, (∀ c ∈ cur, isSeparator c = false) →
      ∀ w ∈ splitGo cs cur, ∀ c ∈ w, isSeparator c = false := by
  induction cs with
  | nil =>
    intro cur hcur w hw c hc
    simp only [splitGo] at hw
    by_cases hce : cur.isEmpty
    · rw [if_pos hce] at hw
      simp at hw
    · rw [if_neg hce] at hw
      simp only [List.mem_singleton] at hw
      subst hw
      exact hcur c hc
  | cons d ds ih =>
    intro cur hcur w hw c hc
    simp only [splitGo] at hw
    by_cases hs : isSeparator d
    · rw [if_pos hs] at hw
      by_cases hce : cur.isEmpty
      · rw [if_pos hce] at hw
        exact ih [] (by simp) w hw c hc
      · rw [if_neg hce] at hw
        rcases List.mem_cons.mp hw with rfl | hw2
        · exact hcur c hc
        · exact ih [] (by simp) w hw2 c hc
    · rw [if_neg hs] at hw
      refine ih (cur ++ [d]) ?_ w hw c hc
      intro e he
      rcases List.mem_append.mp he with he2 | he2
      · exact hcur e he2
      · rw [List.mem_singleton.mp he2]
        simpa using hs

/-- Helper: net effect of typing a word list: the words appear joined by
single spaces, appended to the existing field content. -/
theorem applyKeys_typeGo (errorRate : ℚ) (ws : List (List Char)) :
    ∀ (errDraws : Nat → Nat → ℚ) (wrongDraws : Nat → Nat → Nat) (field : List Char),
      applyKeys field (typeGo errorRate errDraws wrongDraws ws) = field ++ joinWords ws := by
  induction ws with
  | nil => intro eD wD field; simp [typeGo, joinWords, applyKeys]
  | cons w ws ih =>
    intro eD wD field
    cases ws with
    | nil =>
      simp only [typeGo, joinWords, typeWord]
      exact applyKeys_typeWordGo errorRate (eD 0) (wD 0) w 0 field
    | cons w2 ws2 =>
      simp only [typeGo, joinWords, typeWord]
      rw [applyKeys_append, applyKeys_typeWordGo]
      have hstep : applyKeys (field ++ w) (KeyStroke.key ' ' ::
          typeGo errorRate (fun k => eD (k + 1)) (fun k => wD (k + 1)) (w2 :: ws2)) =
          applyKeys ((field ++ w) ++ [' '])
            (typeGo errorRate (fun k => eD (k + 1)) (fun k => wD (k + 1)) (w2 :: ws2)) := rfl
      rw [hstep, ih]
      simp

/-- Helper: every key character typed by the word loop is a character of
one of the words, a space, or a typo-pool letter. -/
theorem typeGo_key_mem (errorRate : ℚ) (ws : List (List Char)) :
    ∀ (errDraws : Nat → Nat → ℚ) (wrongDraws : Nat → Nat → Nat) (c : Char),
      KeyStroke.key c ∈ typeGo errorRate errDraws wrongDraws ws →
      (∃ w ∈ ws, c ∈ w) ∨ c = ' ' ∨ c ∈ typoChars := by
  induction ws with
  | nil => intro eD wD c h; simp [typeGo] at h
  | cons w ws ih =>
    intro eD wD c h
    cases ws with
    | nil =>
      simp only [typeGo, typeWord] at h
      rcases typeWordGo_key_mem errorRate (eD 0) (wD 0) w 0 c h with h2 | h2
      · exact Or.inl ⟨w, List.mem_cons_self _ _, h2⟩
      · exact Or.inr (Or.inr h2)
    | cons w2 ws2 =>
      simp only [typeGo, typeWord, List.mem_append, List.mem_cons] at h
      rcases h with h | h | h
      · rcases typeWordGo_key_mem errorRate (eD 0) (wD 0) w 0 c h with h2 | h2
        · exact Or.inl ⟨w, List.mem_cons_self _ _, h2⟩
        · exact Or.inr (Or.inr h2)
      · cases h
        exact Or.inr (Or.inl rfl)
      · rcases ih (fun k => eD (k + 1)) (fun k => wD (k + 1)) c h with ⟨w3, hw3, hc3⟩ | h2
        · exact Or.inl ⟨w3, List.mem_cons_of_mem _ hw3, hc3⟩
        · exact Or.inr h2

/-- Claim C9: a typo is never injected at a word's first character; an
injected typo is exactly one lowercase pool letter followed by exactly one
Backspace followed by the correct character (one Backspace per fired typo
draw); and the net typed content of a word is always the word itself. -/
theorem typeWord_typo_shape (errorRate : ℚ) (errDraws : Nat → ℚ)
    (wrongDraws : Nat → Nat) (word : List Char) :
    applyKeys [] (typeWord errorRate errDraws wrongDraws word) = word ∧
    (∀ c cs, word = c :: cs →
      (typeWord errorRate errDraws wrongDraws word).head? = some (KeyStroke.key c)) ∧
    ((typeWord errorRate errDraws wrongDraws word).count KeyStroke.backspace =
      ((List.range word.length).filter fun j =>
        shouldMakeError errorRate (errDraws j) && decide (0 < j)).length) ∧
    (∀ i c cs, shouldMakeError errorRate (errDraws i) = true → 0 < i →
      typeWordGo errorRate errDraws wrongDraws i (c :: cs) =
        KeyStroke.key (getRandomChar (wrongDraws i)) :: KeyStroke.backspace ::
          KeyStroke.key c :: typeWordGo errorRate errDraws wrongDraws (i + 1) cs) ∧
    (∀ idx, getRandomChar idx ∈ typoChars) := by
  refine ⟨?_, ?_, ?_, ?_, getRandomChar_mem⟩
  · simpa using applyKeys_typeWordGo errorRate errDraws wrongDraws word 0 []
  · intro c cs h
    subst h
    simp [typeWord, typeWordGo]
  · rw [typeWord, typeWordGo_count, List.range_eq_range']
  · intro i c cs h1 h2
    simp [typeWordGo, h1, h2]

/-- Witness for C9: typing the word "hi" with the typo draw always firing
starts with the correct first character. -/
theorem typeWord_typo_shape_witness :
    (typeWord 1 (fun _ => 0) (fun _ => 0) ['h', 'i']).head? = some (KeyStroke.key 'h') :=
  (typeWord_typo_shape 1 (fun _ => 0) (fun _ => 0) ['h', 'i']).2.1 'h' ['i'] rfl

/-- Claim C10: for every outcome of the random draws, the net typed
content of `Type(text)` is the text's maximal non-whitespace runs joined
by single spaces (whitespace runs collapsed, leading/trailing whitespace
dropped), and no newline or tab key is ever emitted. -/
theorem type_collapses_whitespace (errorRate : ℚ) (errDraws : Nat → Nat → ℚ)
    (wrongDraws : Nat → Nat → Nat) (text : List Char) :
    splitIntoWords text = specWords text ∧
    applyKeys [] (TypeText errorRate errDraws wrongDraws text) = joinWords (specWords text) ∧
    (∀ c, KeyStroke.key c ∈ TypeText errorRate errDraws wrongDraws text →
      c ≠ '\n' ∧ c ≠ '\t') := by
  refine ⟨splitIntoWords_eq_specWords text, ?_, ?_⟩
  · rw [TypeText, applyKeys_typeGo, splitIntoWords_eq_specWords]
    rfl
  · intro c h
    rw [TypeText] at h
    rcases typeGo_key_mem errorRate _ errDraws wrongDraws c h with ⟨w, hw, hc⟩ | h2 | h2
    · have hsep := splitGo_no_sep text [] (by simp) w hw c hc
      constructor <;> rintro rfl <;> simp [isSeparator] at hsep
    · subst h2
      exact ⟨by decide, by decide⟩
    · constructor <;> rintro rfl <;> revert h2 <;> decide

/-- Witness for C10: typing the single-character text "a" emits the key
for a character that is neither newline nor tab. -/
theorem type_collapses_whitespace_witness : ('a' : Char) ≠ '\n' ∧ ('a' : Char) ≠ '\t' :=
  (type_collapses_whitespace 0 (fun _ _ => 1) (fun _ _ => 0) ['a']).2.2 'a' (by decide)

end LinkedInPoc
